import Mathlib

/-!
# DagLens backend (`backend/main.go`): broadcast hub, subscriber sessions, query handlers

A shallow embedding of the Go program.

* A `*websocket.Conn` is a pointer; it is modelled by a natural number (its identity).
* The global `clients` map (`map[*websocket.Conn]bool`) only ever stores the value `true`
  and is only ever ranged over by key, so it is modelled by the duplicate-free list of its
  keys.  The order of the list stands for the order in which `range` yields the keys, which
  Go leaves unspecified; every theorem below holds for every such order.
* The effects of the websocket library (`WriteJSON`, `ReadJSON`, `Close`) are recorded in the
  `World`; whether a write or a read succeeds is an input of the model.
* `database/sql` is a parameter (`DB`): for every query it tells what the driver returns.
-/

namespace DagLens

/-! ## Data model -/

/-- Identity of a `*websocket.Conn`. -/
abbrev Conn := Nat

/-- A `time.Time`, as a number of time units. -/
abbrev Time := Int

/-- The Go struct `Block`. -/
structure Block where
  ID : String
  Hash : String
  ParentHash : String
  Timestamp : Time
  Transactions : List String
  Confirmations : Int
  IsTip : Bool
  Weight : Int

/-- The Go struct `Transaction`. -/
structure Transaction where
  Hash : String
  From : String
  To : String
  Amount : Float
  Timestamp : Time
  BlockHash : String
  Status : String

/-- The Go struct `Metrics`. -/
structure Metrics where
  TPS : Float
  ConfirmationLatency : Float
  TipPoolSize : Int
  OrphanRate : Float
  TotalBlocks : Int
  TotalTransactions : Int
  Timestamp : Time

/-- A value sent over a websocket or through the `broadcast` channel (`interface{}`):
the metrics snapshot, or any other serialisable value, kept as its JSON text. -/
inductive Payload where
  | metrics (m : Metrics)
  | json (text : String)

/-- One call of `WriteJSON` on a connection: the connection, the value, and whether the call
returned a nil error. -/
structure WriteRec where
  conn : Conn
  msg : Payload
  ok : Bool

/-- The observable state around the hub: the keys of the global `clients` map, every `Close()`
call made so far (oldest first) and every `WriteJSON` call made so far (oldest first). -/
structure World where
  clients : List Conn
  closed : List Conn
  wire : List WriteRec

/-- The state at process start: `clients = make(map[*websocket.Conn]bool)`. -/
def World.init : World := { clients := [], closed := [], wire := [] }

/-! ## The `clients` map -/

/-- The statement `clients[c] = true`. -/
def mapSet (m : List Conn) (c : Conn) : List Conn :=
  if c ∈ m then m else m ++ [c]

/-- The statement `delete(clients, c)`. -/
def mapDelete (m : List Conn) (c : Conn) : List Conn :=
  m.filter (fun d => d ≠ c)

/-- The registry operation `Add`: `clients[ws] = true`. -/
def World.add (s : World) (ws : Conn) : World :=
  { s with clients := mapSet s.clients ws }

/-- The registry operation `Remove`: `delete(clients, ws)`. -/
def World.remove (s : World) (ws : Conn) : World :=
  { s with clients := mapDelete s.clients ws }

/-- The call `c.Close()`. -/
def World.close (s : World) (c : Conn) : World :=
  { s with closed := s.closed ++ [c] }

/-- The call `c.WriteJSON(msg)`, with its outcome. -/
def World.writeJSON (s : World) (c : Conn) (msg : Payload) (ok : Bool) : World :=
  { s with wire := s.wire ++ [{ conn := c, msg := msg, ok := ok }] }

/-- All values passed to `WriteJSON` on connection `c`, in order. -/
def World.attemptsTo (s : World) (c : Conn) : List Payload :=
  (s.wire.filter (fun r => r.conn = c)).map WriteRec.msg

/-- All values whose `WriteJSON` on connection `c` succeeded, in order: what the peer of `c`
receives. -/
def World.receivedBy (s : World) (c : Conn) : List Payload :=
  (s.wire.filter (fun r => r.conn = c ∧ r.ok = true)).map WriteRec.msg

/-! ## `handleMessages` -/

/-- The cleanup of `handleMessages` after a failed write: `client.Close()` and then
`delete(clients, client)`. -/
def hubCleanup (s : World) (client : Conn) : World :=
  (s.close client).remove client

/-- The body of `for client := range clients` for one key.  `range` does not produce a key that
was deleted from the map before being reached, hence the membership test. -/
def fanOutStep (ok : Conn → Bool) (msg : Payload) (s : World) (client : Conn) : World :=
  if client ∈ s.clients then
    let s1 := s.writeJSON client msg (ok client)
    if ok client then s1 else hubCleanup s1 client
  else s

/-- One iteration of the outer loop of `handleMessages` after `msg := <-broadcast`: the range
loop over the keys the map has when the loop starts.  `ok c` tells whether `c.WriteJSON(msg)`
succeeds in this round. -/
def broadcastRound (ok : Conn → Bool) (msg : Payload) (s : World) : World :=
  s.clients.foldl (fanOutStep ok msg) s

/-- The loop of `handleMessages` over the values received from `broadcast`, in the order they
were received, each with the write outcomes of its round. -/
def handleMessages (events : List (Payload × (Conn → Bool))) (s : World) : World :=
  events.foldl (fun st e => broadcastRound e.2 e.1 st) s

/-! ## The store (`database/sql`) -/

/-- The outcome of one `Scan` into a destination of type `α`: the destination after the call
and the error returned (`none` for nil). -/
structure Scanned (α : Type) where
  value : α
  err : Option String

/-- The store as the handlers see it.  `queryBlocks sql args` is `db.Query(sql, args...)` for
a statement selecting block columns: the error, or for each row produced by `rows.Next()` the
outcome of `rows.Scan` into a fresh `Block`; likewise for transactions.  `rowBlock` and
`rowTransaction` are `db.QueryRow(sql, args...).Scan(...)` (any failure, the absence of a
row included, is the error), `rowFloat` and `rowInt` are `db.QueryRow(sql).Scan(&x)` for a
single `float64` or `int` destination. -/
structure DB where
  queryBlocks : String → List String → Except String (List (Scanned Block))
  queryTransactions : String → List String → Except String (List (Scanned Transaction))
  rowBlock : String → List String → Except String Block
  rowTransaction : String → List String → Except String Transaction
  rowFloat : String → Except String Float
  rowInt : String → Except String Int

/-- The variable `x` after `db.QueryRow(q).Scan(&x)` whose error is ignored: the scanned value,
or the previous value when the call failed. -/
def scanInto {α : Type} (x : α) (r : Except String α) : α :=
  match r with
  | .ok v => v
  | .error _ => x

/-- The function `getCurrentMetrics`; `now` is the value of `time.Now()`. -/
def getCurrentMetrics (db : DB) (now : Time) : Metrics :=
  let tps : Float := scanInto 0.0 (db.rowFloat
    "SELECT COUNT(*) FROM transactions WHERE timestamp > NOW() - INTERVAL \x271 minute\x27")
  let tps := tps / 60.0
  let tipPoolSize : Int := scanInto 0 (db.rowInt "SELECT COUNT(*) FROM blocks WHERE is_tip = true")
  let totalBlocks : Int := scanInto 0 (db.rowInt "SELECT COUNT(*) FROM blocks")
  let totalTransactions : Int := scanInto 0 (db.rowInt "SELECT COUNT(*) FROM transactions")
  let orphanCount : Int :=
    scanInto 0 (db.rowInt "SELECT COUNT(*) FROM blocks WHERE confirmations = 0")
  let orphanRate : Float :=
    if totalBlocks > 0 then Float.ofInt orphanCount / Float.ofInt totalBlocks * 100 else 0.0
  { TPS := tps
    ConfirmationLatency := 2.5
    TipPoolSize := tipPoolSize
    OrphanRate := orphanRate
    TotalBlocks := totalBlocks
    TotalTransactions := totalTransactions
    Timestamp := now }

/-! ## `handleConnections` -/

/-- The cleanup of `handleConnections` when a read fails: `delete(clients, ws)`, `break`, and
the deferred `ws.Close()` on return. -/
def sessionCleanup (s : World) (ws : Conn) : World :=
  (s.remove ws).close ws

/-- The statements `metrics := getCurrentMetrics()` and `ws.WriteJSON(metrics)`; `wok` tells
whether the write succeeds (its error is not looked at). -/
def sendInitial (db : DB) (now : Time) (ws : Conn) (wok : Bool) (s : World) : World :=
  let metrics := getCurrentMetrics db now
  s.writeJSON ws (Payload.metrics metrics) wok

/-- A statement of `handleConnections` between the upgrade and the read loop: the registration
`clients[ws] = true`, or the initial data (`metrics := getCurrentMetrics()` and
`ws.WriteJSON(metrics)`). -/
inductive SessionStmt where
  | register
  | sendInitial (db : DB) (now : Time) (wok : Bool)

/-- The effect of a statement of the session on connection `ws`. -/
def SessionStmt.exec (ws : Conn) : SessionStmt → World → World
  | .register, s => s.add ws
  | .sendInitial db now wok, s => DagLens.sendInitial db now ws wok s

/-- The statements of `handleConnections` between the upgrade and the read loop, in program
order. -/
def sessionStartStmts (db : DB) (now : Time) (wok : Bool) : List SessionStmt :=
  [SessionStmt.register, SessionStmt.sendInitial db now wok]

/-- The statements of a session on `ws` run in program order, with what the other goroutines do
scheduled between them: the first element of `gaps` is the effect of what runs right after
the first statement, the second of what runs right after the second, and so on (nothing where
`gaps` is exhausted). -/
def runSession (ws : Conn) : List SessionStmt → List (World → World) → World → World
  | [], _, s => s
  | stmt :: rest, gaps, s => runSession ws rest gaps.tail ((gaps.headD id) (stmt.exec ws s))

/-- The state in which the session on `ws` takes the snapshot to send, that is in which its
statement `sendInitial` starts, under the same schedule as `runSession`; `none` if the
statements hold no `sendInitial`. -/
def stateAtSnapshot (ws : Conn) :
    List SessionStmt → List (World → World) → World → Option World
  | [], _, _ => none
  | .sendInitial _ _ _ :: _, _, s => some s
  | .register :: rest, gaps, s =>
    stateAtSnapshot ws rest gaps.tail ((gaps.headD id) (SessionStmt.register.exec ws s))

/-- The function `handleConnections` after a successful upgrade to `ws` and up to the entry of
the read loop: its statements run in program order, nothing else running in between. -/
def sessionStart (db : DB) (now : Time) (ws : Conn) (wok : Bool) (s : World) : World :=
  runSession ws (sessionStartStmts db now wok) [] s

/-- The read loop of `handleConnections`, run on the outcomes of the successive `ReadJSON`
calls (`true`: a message was read, it is discarded; `false`: the read failed).  The result is
the state at return together with the outcomes not consumed, and `none` if every outcome
given was consumed and the loop is still reading. -/
def readLoop (ws : Conn) : List Bool → World → Option (World × List Bool)
  | [], _ => none
  | true :: rest, s => readLoop ws rest s
  | false :: rest, s => some (sessionCleanup s ws, rest)

/-- The function `handleConnections`: `upgrade` is the result of `upgrader.Upgrade`, `wok` the
outcome of the initial write, `reads` the outcomes of the successive reads.  The result is
the state when the function returns, `none` if it is still in its read loop. -/
def handleConnections (db : DB) (now : Time) (upgrade : Except String Conn) (wok : Bool)
    (reads : List Bool) (s : World) : Option World :=
  match upgrade with
  | .error _ => some s
  | .ok ws => (readLoop ws reads (sessionStart db now ws wok s)).map Prod.fst

/-! ## Interleaved runs of the hub and the sessions -/

/-- One step of the process, at the granularity of the statements that touch the shared
state: an iteration of the loop of `handleMessages` for a value sent to `broadcast`, the
start of a session (`handleConnections` up to its read loop), or one `ReadJSON` of a
session in its read loop. -/
inductive Action where
  | publish (msg : Payload) (ok : Conn → Bool)
  | connect (db : DB) (now : Time) (ws : Conn) (wok : Bool)
  | read (ws : Conn) (ok : Bool)

/-- The effect of one step. -/
def step (s : World) : Action → World
  | .publish msg ok => broadcastRound ok msg s
  | .connect db now ws wok => sessionStart db now ws wok s
  | .read _ true => s
  | .read ws false => sessionCleanup s ws

/-- The effect of a sequence of steps. -/
def run (acts : List Action) (s : World) : World :=
  acts.foldl step s

/-- The values published by a sequence of steps, in order. -/
def published : List Action → List Payload
  | [] => []
  | .publish msg _ :: rest => msg :: published rest
  | _ :: rest => published rest

/-- The step leaves connection `c` alone: it is not the start of a session on `c`, not a failed
read of `c`, and not a round in which the write to `c` fails. -/
def Action.spares (c : Conn) : Action → Prop
  | .publish _ ok => ok c = true
  | .connect _ _ ws _ => ws ≠ c
  | .read ws ok => ws ≠ c ∨ ok = true

/-! ## The registry as a sequence of `Add` and `Remove` calls -/

/-- A call on the registry. -/
inductive RegOp where
  | add (c : Conn)
  | remove (c : Conn)
  deriving DecidableEq

/-- The effect of a call on the keys of `clients`. -/
def RegOp.apply (m : List Conn) : RegOp → List Conn
  | .add c => mapSet m c
  | .remove c => mapDelete m c

/-- The keys of `clients` after a sequence of calls on the empty map. -/
def registryAfter (ops : List RegOp) : List Conn :=
  ops.foldl RegOp.apply []

/-- The connections added by a sequence of calls, with repetitions. -/
def addsOf : List RegOp → List Conn
  | [] => []
  | .add c :: rest => c :: addsOf rest
  | .remove _ :: rest => addsOf rest

/-- The connections removed by a sequence of calls, with repetitions. -/
def removesOf : List RegOp → List Conn
  | [] => []
  | .add _ :: rest => removesOf rest
  | .remove c :: rest => c :: removesOf rest

/-- No call on a connection is followed by an `Add` of the same connection: every connection is
added at most once, and removed only after it has been added. -/
def RegisteredOnce : List RegOp → Prop
  | [] => True
  | .add c :: rest => c ∉ addsOf rest ∧ RegisteredOnce rest
  | .remove c :: rest => c ∉ addsOf rest ∧ RegisteredOnce rest

/-- The `Add` and `Remove` calls made by one step taken in state `s`, in order: a round of
`handleMessages` removes the registered connections whose write fails, in the order of the
range loop; the start of a session adds its connection; a failed read removes it. -/
def callsOf (s : World) : Action → List RegOp
  | .publish _ ok => (s.clients.filter (fun c => !ok c)).map RegOp.remove
  | .connect _ _ ws _ => [RegOp.add ws]
  | .read _ true => []
  | .read ws false => [RegOp.remove ws]

/-- The `Add` and `Remove` calls made by a sequence of steps from state `s`, in order. -/
def runCalls : List Action → World → List RegOp
  | [], _ => []
  | a :: rest, s => callsOf s a ++ runCalls rest (step s a)

/-- The connections on which a sequence of steps starts a session, in order. -/
def connectsOf : List Action → List Conn
  | [] => []
  | .connect _ _ ws _ :: rest => ws :: connectsOf rest
  | _ :: rest => connectsOf rest

/-- The sequence of steps is one the process can take: `upgrader.Upgrade` returns a new
connection each time and a session reads from its connection only after registering it, so no
session start and no read on a connection is followed by a session start on the same
connection. -/
def FreshUpgrades : List Action → Prop
  | [] => True
  | .publish _ _ :: rest => FreshUpgrades rest
  | .connect _ _ ws _ :: rest => ws ∉ connectsOf rest ∧ FreshUpgrades rest
  | .read ws _ :: rest => ws ∉ connectsOf rest ∧ FreshUpgrades rest

/-! ## The query handlers -/

/-- What a handler reads from the request: `r.URL.Query().Get(key)` (the empty string when the
parameter is absent) and `mux.Vars(r)[key]`. -/
structure Request where
  query : String → String
  vars : String → String

/-- The value written to the response: the text of `http.Error`, or the value handed to the
JSON encoder. -/
inductive Body where
  | text (s : String)
  | blocks (bs : List Block)
  | block (b : Block)
  | transaction (t : Transaction)
  | address (address : String) (transactions : List Transaction)
  | metrics (m : Metrics)
  | search (query : String) (blocks : List Block) (transactions : List Transaction)

/-- The HTTP response: status code, `Content-Type` header and body. -/
structure Response where
  status : Nat
  contentType : String
  body : Body

/-- The call `http.Error(w, msg, code)`. -/
def httpError (msg : String) (code : Nat) : Response :=
  { status := code, contentType := "text/plain; charset=utf-8", body := Body.text (msg ++ "\n") }

/-- Setting `Content-Type: application/json` and encoding a value, with the implicit
status 200. -/
def jsonOK (b : Body) : Response :=
  { status := 200, contentType := "application/json", body := b }

/-- The constant `http.StatusInternalServerError`. -/
def StatusInternalServerError : Nat := 500

/-- The constant `http.StatusNotFound`. -/
def StatusNotFound : Nat := 404

/-- The constant `http.StatusBadRequest`. -/
def StatusBadRequest : Nat := 400

/-- The rows loop of `getBlocks` and `getAddress`: a row whose `Scan` fails is skipped
(`continue`). -/
def scanRows {α : Type} (rows : List (Scanned α)) : List α :=
  rows.filterMap (fun row => if row.err.isSome then none else some row.value)

/-- The rows loops of `search`: the error of `Scan` is not looked at, every row is appended. -/
def scanRowsUnchecked {α : Type} (rows : List (Scanned α)) : List α :=
  rows.map Scanned.value

/-- The SQL text of `getBlocks`. -/
def getBlocksQuery : String :=
  "SELECT id, hash, parent_hash, timestamp, confirmations, is_tip, weight FROM blocks ORDER BY timestamp DESC LIMIT $1"

/-- The SQL text of `getAddress`. -/
def getAddressQuery : String :=
  "SELECT hash, from_address, to_address, amount, timestamp, block_hash, status FROM transactions WHERE from_address = $1 OR to_address = $1 ORDER BY timestamp DESC LIMIT 20"

/-- The handler `getBlocks`. -/
def getBlocks (db : DB) (r : Request) : Response :=
  let limit := if r.query "limit" = "" then "50" else r.query "limit"
  match db.queryBlocks getBlocksQuery [limit] with
  | .error err => httpError err StatusInternalServerError
  | .ok rows => jsonOK (Body.blocks (scanRows rows))

/-- The handler `getBlock`. -/
def getBlock (db : DB) (r : Request) : Response :=
  let id := r.vars "id"
  match db.rowBlock
    "SELECT id, hash, parent_hash, timestamp, confirmations, is_tip, weight FROM blocks WHERE id = $1 OR hash = $1"
    [id] with
  | .error _ => httpError "Block not found" StatusNotFound
  | .ok block => jsonOK (Body.block block)

/-- The handler `getTransaction`. -/
def getTransaction (db : DB) (r : Request) : Response :=
  let hash := r.vars "hash"
  match db.rowTransaction
    "SELECT hash, from_address, to_address, amount, timestamp, block_hash, status FROM transactions WHERE hash = $1"
    [hash] with
  | .error _ => httpError "Transaction not found" StatusNotFound
  | .ok tx => jsonOK (Body.transaction tx)

/-- The handler `getAddress`. -/
def getAddress (db : DB) (r : Request) : Response :=
  let address := r.vars "address"
  match db.queryTransactions getAddressQuery [address] with
  | .error err => httpError err StatusInternalServerError
  | .ok rows => jsonOK (Body.address address (scanRows rows))

/-- The handler `getMetrics`; `now` is the value of `time.Now()`. -/
def getMetrics (db : DB) (now : Time) (_r : Request) : Response :=
  jsonOK (Body.metrics (getCurrentMetrics db now))

/-- The handler `search`. -/
def search (db : DB) (r : Request) : Response :=
  let query := r.query "q"
  if query = "" then httpError "Query parameter required" StatusBadRequest
  else
    let blocks : List Block :=
      match db.queryBlocks
        "SELECT id, hash, parent_hash, timestamp, confirmations, is_tip, weight FROM blocks WHERE hash ILIKE $1 OR id ILIKE $1 LIMIT 10"
        ["%" ++ query ++ "%"] with
      | .ok rows => scanRowsUnchecked rows
      | .error _ => []
    let transactions : List Transaction :=
      match db.queryTransactions
        "SELECT hash, from_address, to_address, amount, timestamp, block_hash, status FROM transactions WHERE hash ILIKE $1 OR from_address ILIKE $1 OR to_address ILIKE $1 LIMIT 10"
        ["%" ++ query ++ "%"] with
      | .ok rows => scanRowsUnchecked rows
      | .error _ => []
    jsonOK (Body.search query blocks transactions)

/-- A store that cannot be reached: every query fails with the same driver error. -/
def downDB : DB :=
  { queryBlocks := fun _ _ => .error "connection refused"
    queryTransactions := fun _ _ => .error "connection refused"
    rowBlock := fun _ _ => .error "connection refused"
    rowTransaction := fun _ _ => .error "connection refused"
    rowFloat := fun _ => .error "connection refused"
    rowInt := fun _ => .error "connection refused" }

/-- A request with the given value for every query parameter and every route variable. -/
def constRequest (v : String) : Request :=
  { query := fun _ => v, vars := fun _ => v }

/-! ## Sample inputs -/

/-- A state with three registered connections and nothing written or closed yet. -/
def sampleWorld : World := { clients := [1, 2, 3], closed := [], wire := [] }

/-- Write outcomes in which connection 2 fails and every other connection succeeds. -/
def sampleOutcome : Conn → Bool := fun c => decide (c ≠ 2)

/-- Write outcomes in which every write succeeds. -/
def allOk : Conn → Bool := fun _ => true

/-- The end-to-end run: a value is published with nobody connected; `S1` connects; a value is
published; `S2` connects; a value is published; a read of `S1` fails; a value is published.
`ok0` to `ok3` are the write outcomes of the four rounds. -/
def scenario (db1 db2 : DB) (t1 t2 : Time) (S1 S2 : Conn) (A B C D : Payload)
    (ok0 ok1 ok2 ok3 : Conn → Bool) : List Action :=
  [Action.publish A ok0, Action.connect db1 t1 S1 true, Action.publish B ok1,
    Action.connect db2 t2 S2 true, Action.publish C ok2, Action.read S1 false,
    Action.publish D ok3]

/-! ## Lemmas on the `clients` map -/

theorem mem_mapDelete {m : List Conn} {c d : Conn} : d ∈ mapDelete m c ↔ d ∈ m ∧ d ≠ c := by
  simp [mapDelete]

theorem mem_mapSet {m : List Conn} {c d : Conn} : d ∈ mapSet m c ↔ d ∈ m ∨ d = c := by
  unfold mapSet
  split
  · constructor
    · intro h; exact Or.inl h
    · rintro (h | h)
      · exact h
      · subst h; assumption
  · simp

theorem nodup_mapDelete {m : List Conn} (c : Conn) (h : m.Nodup) : (mapDelete m c).Nodup :=
  h.filter _

theorem nodup_mapSet {m : List Conn} (c : Conn) (h : m.Nodup) : (mapSet m c).Nodup := by
  unfold mapSet
  split
  · exact h
  · rename_i hc
    rw [List.nodup_append]
    refine ⟨h, List.nodup_singleton c, ?_⟩
    intro a ha hb
    simp at hb
    subst hb
    exact hc ha

/-! ## Lemmas on one round of `handleMessages` -/

theorem fanOutStep_fold (ok : Conn → Bool) (msg : Payload) :
    ∀ (l : List Conn) (s : World), l.Nodup → (∀ c ∈ l, c ∈ s.clients) →
      l.foldl (fanOutStep ok msg) s =
        { clients := s.clients.filter (fun c => decide (c ∉ l) || ok c)
          closed := s.closed ++ l.filter (fun c => !ok c)
          wire := s.wire ++ l.map (fun c => { conn := c, msg := msg, ok := ok c }) } := by
  intro l
  induction l with
  | nil => intro s _ _; cases s; simp
  | cons c t ih =>
    intro s hnd hmem
    have hc : c ∈ s.clients := hmem c (List.mem_cons_self c t)
    have hct : c ∉ t := (List.nodup_cons.mp hnd).1
    have htnd : t.Nodup := (List.nodup_cons.mp hnd).2
    rw [List.foldl_cons]
    by_cases hok : ok c = true
    · have hstep : fanOutStep ok msg s c = s.writeJSON c msg true := by
        simp [fanOutStep, hc, hok]
      rw [hstep, ih (s.writeJSON c msg true) htnd (fun d hd => hmem d (List.mem_cons_of_mem c hd))]
      simp only [World.writeJSON, World.mk.injEq]
      refine ⟨?_, ?_, ?_⟩
      · apply List.filter_congr
        intro d _
        by_cases hdc : d = c
        · subst hdc; simp [hok]
        · simp [hdc]
      · simp [List.filter_cons, hok]
      · simp [hok]
    · have hok2 : ok c = false := by simpa using hok
      have hstep : fanOutStep ok msg s c = hubCleanup (s.writeJSON c msg false) c := by
        simp [fanOutStep, hc, hok2]
      have hmem2 : ∀ d ∈ t, d ∈ (hubCleanup (s.writeJSON c msg false) c).clients := by
        intro d hd
        have hdc : d ≠ c := fun h => hct (h ▸ hd)
        simp only [hubCleanup, World.remove, World.close, World.writeJSON]
        exact mem_mapDelete.mpr ⟨hmem d (List.mem_cons_of_mem c hd), hdc⟩
      rw [hstep, ih (hubCleanup (s.writeJSON c msg false) c) htnd hmem2]
      simp only [hubCleanup, World.remove, World.close, World.writeJSON, World.mk.injEq]
      refine ⟨?_, ?_, ?_⟩
      · simp only [mapDelete, List.filter_filter]
        apply List.filter_congr
        intro d _
        by_cases hdc : d = c
        · subst hdc; simp [hok2]
        · simp [hdc]
      · simp [List.filter_cons, hok2]
      · simp [hok2]

/-- One round in closed form, for a map with distinct keys. -/
theorem broadcastRound_eq (ok : Conn → Bool) (msg : Payload) (s : World) (h : s.clients.Nodup) :
    broadcastRound ok msg s =
      { clients := s.clients.filter (fun c => ok c)
        closed := s.closed ++ s.clients.filter (fun c => !ok c)
        wire := s.wire ++ s.clients.map (fun c => { conn := c, msg := msg, ok := ok c }) } := by
  unfold broadcastRound
  rw [fanOutStep_fold ok msg s.clients s h (fun c hc => hc)]
  simp only [World.mk.injEq, and_true]
  apply List.filter_congr
  intro d hd
  simp [hd]

theorem roundWrites_filter (ok : Conn → Bool) (msg : Payload) (c : Conn) (p : WriteRec → Bool)
    (hp : ∀ r : WriteRec, p r = true → r.conn = c) :
    ∀ l : List Conn, l.Nodup →
      (l.map (fun d => ({ conn := d, msg := msg, ok := ok d } : WriteRec))).filter p =
        if c ∈ l ∧ p { conn := c, msg := msg, ok := ok c } = true then
          [{ conn := c, msg := msg, ok := ok c }] else [] := by
  intro l
  induction l with
  | nil => intro _; simp
  | cons d t ih =>
    intro hnd
    have hdt : d ∉ t := (List.nodup_cons.mp hnd).1
    have ih2 := ih (List.nodup_cons.mp hnd).2
    rw [List.map_cons, List.filter_cons, ih2]
    by_cases hpd : p { conn := d, msg := msg, ok := ok d } = true
    · have hdc : d = c := hp _ hpd
      subst hdc
      simp [hpd, hdt]
    · have hne : ¬ (c = d ∧ p { conn := c, msg := msg, ok := ok c } = true) := by
        rintro ⟨h1, h2⟩
        subst h1
        exact hpd h2
      by_cases hct : c ∈ t ∧ p { conn := c, msg := msg, ok := ok c } = true
      · simp [hpd, hct]
      · have : ¬ ((c = d ∨ c ∈ t) ∧ p { conn := c, msg := msg, ok := ok c } = true) := by
          rintro ⟨h1 | h1, h2⟩
          · exact hne ⟨h1, h2⟩
          · exact hct ⟨h1, h2⟩
        simp [hpd, hct, this]

/-- What one round adds to the writes attempted on a connection. -/
theorem broadcastRound_attemptsTo (ok : Conn → Bool) (msg : Payload) (s : World)
    (h : s.clients.Nodup) (c : Conn) :
    (broadcastRound ok msg s).attemptsTo c =
      s.attemptsTo c ++ (if c ∈ s.clients then [msg] else []) := by
  rw [broadcastRound_eq ok msg s h]
  simp only [World.attemptsTo, List.filter_append, List.map_append]
  rw [roundWrites_filter ok msg c (fun r => decide (r.conn = c)) (by simp) s.clients h]
  by_cases hc : c ∈ s.clients <;> simp [hc]

/-- What one round adds to the values received on a connection. -/
theorem broadcastRound_receivedBy (ok : Conn → Bool) (msg : Payload) (s : World)
    (h : s.clients.Nodup) (c : Conn) :
    (broadcastRound ok msg s).receivedBy c =
      s.receivedBy c ++ (if c ∈ s.clients ∧ ok c = true then [msg] else []) := by
  rw [broadcastRound_eq ok msg s h]
  simp only [World.receivedBy, List.filter_append, List.map_append]
  rw [roundWrites_filter ok msg c (fun r => decide (r.conn = c ∧ r.ok = true))
    (by intro r hr; simp at hr; exact hr.1) s.clients h]
  by_cases hc : c ∈ s.clients <;> by_cases hok : ok c = true <;> simp [hc, hok]

theorem broadcastRound_nodup (ok : Conn → Bool) (msg : Payload) (s : World)
    (h : s.clients.Nodup) : (broadcastRound ok msg s).clients.Nodup := by
  rw [broadcastRound_eq ok msg s h]
  exact h.filter _

theorem broadcastRound_mem (ok : Conn → Bool) (msg : Payload) (s : World)
    (h : s.clients.Nodup) (c : Conn) :
    c ∈ (broadcastRound ok msg s).clients ↔ c ∈ s.clients ∧ ok c = true := by
  rw [broadcastRound_eq ok msg s h]
  simp

/-! ## Lemmas on interleaved runs -/

theorem sessionStart_eq (db : DB) (now : Time) (ws : Conn) (wok : Bool) (s : World) :
    sessionStart db now ws wok s = sendInitial db now ws wok (s.add ws) := rfl

theorem step_nodup (s : World) (a : Action) (h : s.clients.Nodup) : (step s a).clients.Nodup := by
  cases a with
  | publish msg ok => exact broadcastRound_nodup ok msg s h
  | connect db now ws wok =>
    simp only [step, sessionStart_eq, sendInitial, World.writeJSON, World.add]
    exact nodup_mapSet ws h
  | read ws ok =>
    cases ok
    · simp only [step, sessionCleanup, World.close, World.remove]
      exact nodup_mapDelete ws h
    · exact h

theorem run_nodup (acts : List Action) : ∀ s : World, s.clients.Nodup → (run acts s).clients.Nodup := by
  induction acts with
  | nil => intro s h; exact h
  | cons a rest ih => intro s h; exact ih (step s a) (step_nodup s a h)

/-- A step that spares a registered connection keeps it registered and writes to it exactly the
value it publishes, if any. -/
theorem step_spares (s : World) (a : Action) (c : Conn) (h : s.clients.Nodup)
    (hc : c ∈ s.clients) (ha : a.spares c) :
    c ∈ (step s a).clients ∧
    (step s a).attemptsTo c = s.attemptsTo c ++ published [a] ∧
    (step s a).receivedBy c = s.receivedBy c ++ published [a] := by
  cases a with
  | publish msg ok =>
    have hok : ok c = true := ha
    refine ⟨(broadcastRound_mem ok msg s h c).mpr ⟨hc, hok⟩, ?_, ?_⟩
    · simp [step, published, broadcastRound_attemptsTo ok msg s h c, hc]
    · simp [step, published, broadcastRound_receivedBy ok msg s h c, hc, hok]
  | connect db now ws wok =>
    have hne : ws ≠ c := ha
    refine ⟨?_, ?_, ?_⟩
    · simp only [step, sessionStart_eq, sendInitial, World.writeJSON, World.add]
      exact mem_mapSet.mpr (Or.inl hc)
    · simp [step, published, sessionStart_eq, sendInitial, World.writeJSON, World.add,
        World.attemptsTo, List.filter_append, hne]
    · simp [step, published, sessionStart_eq, sendInitial, World.writeJSON, World.add,
        World.receivedBy, List.filter_append, hne]
  | read ws ok =>
    cases ok with
    | true => simp [step, published, hc]
    | false =>
      have hne : ws ≠ c := by
        rcases ha with h1 | h1
        · exact h1
        · exact absurd h1 (by simp)
      refine ⟨?_, ?_, ?_⟩
      · simp only [step, sessionCleanup, World.close, World.remove]
        exact mem_mapDelete.mpr ⟨hc, fun h => hne h.symm⟩
      · simp [step, published, sessionCleanup, World.close, World.remove, World.attemptsTo]
      · simp [step, published, sessionCleanup, World.close, World.remove, World.receivedBy]

theorem published_cons (a : Action) (rest : List Action) :
    published (a :: rest) = published [a] ++ published rest := by
  cases a <;> simp [published]

/-- A run that spares a registered connection keeps it registered and writes to it exactly the
values published, in the order they were published. -/
theorem run_spares (acts : List Action) (c : Conn) :
    ∀ s : World, s.clients.Nodup → c ∈ s.clients → (∀ a ∈ acts, a.spares c) →
      c ∈ (run acts s).clients ∧
      (run acts s).attemptsTo c = s.attemptsTo c ++ published acts ∧
      (run acts s).receivedBy c = s.receivedBy c ++ published acts := by
  induction acts with
  | nil => intro s _ hc _; simp [run, published, hc]
  | cons a rest ih =>
    intro s h hc hall
    obtain ⟨h1, h2, h3⟩ := step_spares s a c h hc (hall a (List.mem_cons_self a rest))
    obtain ⟨k1, k2, k3⟩ := ih (step s a) (step_nodup s a h) h1
      (fun b hb => hall b (List.mem_cons_of_mem a hb))
    refine ⟨k1, ?_, ?_⟩
    · have : run (a :: rest) s = run rest (step s a) := rfl
      rw [this, k2, h2, published_cons a rest, List.append_assoc]
    · have : run (a :: rest) s = run rest (step s a) := rfl
      rw [this, k3, h3, published_cons a rest, List.append_assoc]

theorem handleMessages_eq_run (events : List (Payload × (Conn → Bool))) :
    ∀ s : World, handleMessages events s = run (events.map (fun e => Action.publish e.1 e.2)) s := by
  induction events with
  | nil => intro s; rfl
  | cons e rest ih =>
    intro s
    have h1 : handleMessages (e :: rest) s = handleMessages rest (broadcastRound e.2 e.1 s) := rfl
    have h2 : run ((e :: rest).map (fun e => Action.publish e.1 e.2)) s =
        run (rest.map (fun e => Action.publish e.1 e.2)) (broadcastRound e.2 e.1 s) := rfl
    rw [h1, h2, ih]

theorem published_map_publish (events : List (Payload × (Conn → Bool))) :
    published (events.map (fun e => Action.publish e.1 e.2)) = events.map Prod.fst := by
  induction events with
  | nil => rfl
  | cons e rest ih => simp [published, ih]

/-! ## The hub -/

/-- C1 (isolation of fan-out).  For every registry with distinct keys, every value `msg` and
every assignment `ok` of write outcomes, the writes made by one round of `handleMessages` are
exactly one write of `msg` per connection registered at the start of the round; so for a
registered connection `c` the round adds exactly one attempt, of `msg`, and `c` receives
`msg` exactly once if its own write succeeds (and not at all otherwise), whatever the outcomes
of the other members. -/
theorem broadcastRound_fanout_isolation (ok : Conn → Bool) (msg : Payload) (s : World)
    (h : s.clients.Nodup) (c : Conn) (hc : c ∈ s.clients) :
    (broadcastRound ok msg s).wire =
      s.wire ++ s.clients.map (fun d => { conn := d, msg := msg, ok := ok d }) ∧
    (broadcastRound ok msg s).attemptsTo c = s.attemptsTo c ++ [msg] ∧
    (broadcastRound ok msg s).receivedBy c =
      s.receivedBy c ++ (if ok c = true then [msg] else []) := by
  refine ⟨?_, ?_, ?_⟩
  · rw [broadcastRound_eq ok msg s h]
  · rw [broadcastRound_attemptsTo ok msg s h c]; simp [hc]
  · rw [broadcastRound_receivedBy ok msg s h c]; simp [hc]

theorem broadcastRound_fanout_isolation_witness :
    sampleWorld.clients.Nodup ∧ 3 ∈ sampleWorld.clients ∧
    (broadcastRound sampleOutcome (Payload.json "m") sampleWorld).wire =
      sampleWorld.wire ++
        sampleWorld.clients.map (fun d => { conn := d, msg := Payload.json "m", ok := sampleOutcome d }) ∧
    (broadcastRound sampleOutcome (Payload.json "m") sampleWorld).attemptsTo 3 =
      sampleWorld.attemptsTo 3 ++ [Payload.json "m"] ∧
    (broadcastRound sampleOutcome (Payload.json "m") sampleWorld).receivedBy 3 =
      sampleWorld.receivedBy 3 ++ (if sampleOutcome 3 = true then [Payload.json "m"] else []) :=
  ⟨by decide, by decide,
    broadcastRound_fanout_isolation sampleOutcome (Payload.json "m") sampleWorld (by decide) 3
      (by decide)⟩

/-- C2 (dead-connection removal).  For every registry with distinct keys and every value, after
one round of `handleMessages` the registry is the registry at the start of the round without the
connections whose write failed, and the connections closed by the round are exactly those whose
write failed, each closed once: a connection whose write succeeded is neither closed nor
removed. -/
theorem broadcastRound_removes_failed (ok : Conn → Bool) (msg : Payload) (s : World)
    (h : s.clients.Nodup) :
    (broadcastRound ok msg s).clients = s.clients.filter (fun c => ok c) ∧
    (broadcastRound ok msg s).closed = s.closed ++ s.clients.filter (fun c => !ok c) ∧
    (∀ c, c ∈ (broadcastRound ok msg s).clients ↔ c ∈ s.clients ∧ ok c = true) := by
  refine ⟨?_, ?_, fun c => broadcastRound_mem ok msg s h c⟩
  · rw [broadcastRound_eq ok msg s h]
  · rw [broadcastRound_eq ok msg s h]

theorem broadcastRound_removes_failed_witness :
    sampleWorld.clients.Nodup ∧
    (broadcastRound sampleOutcome (Payload.json "m") sampleWorld).clients =
      sampleWorld.clients.filter (fun c => sampleOutcome c) ∧
    (broadcastRound sampleOutcome (Payload.json "m") sampleWorld).closed =
      sampleWorld.closed ++ sampleWorld.clients.filter (fun c => !sampleOutcome c) ∧
    (∀ c, c ∈ (broadcastRound sampleOutcome (Payload.json "m") sampleWorld).clients ↔
      c ∈ sampleWorld.clients ∧ sampleOutcome c = true) :=
  ⟨by decide,
    broadcastRound_removes_failed sampleOutcome (Payload.json "m") sampleWorld (by decide)⟩

/-- C3 (order preservation).  For every finite sequence of values received from `broadcast`,
with any write outcomes for the other connections, a connection that is registered before the
first value is dispatched and whose writes never fail is written exactly the sequence of values,
in the same order, once each, and receives them all; it is still registered at the end. -/
theorem handleMessages_preserves_order (events : List (Payload × (Conn → Bool))) (s : World)
    (h : s.clients.Nodup) (c : Conn) (hc : c ∈ s.clients)
    (hok : ∀ e ∈ events, e.2 c = true) :
    (handleMessages events s).attemptsTo c = s.attemptsTo c ++ events.map Prod.fst ∧
    (handleMessages events s).receivedBy c = s.receivedBy c ++ events.map Prod.fst ∧
    c ∈ (handleMessages events s).clients := by
  have hsp : ∀ a ∈ events.map (fun e => Action.publish e.1 e.2), a.spares c := by
    intro a ha
    obtain ⟨e, he, rfl⟩ := List.mem_map.mp ha
    exact hok e he
  obtain ⟨h1, h2, h3⟩ := run_spares _ c s h hc hsp
  rw [handleMessages_eq_run, published_map_publish] at *
  exact ⟨h2, h3, h1⟩

theorem handleMessages_preserves_order_witness :
    sampleWorld.clients.Nodup ∧ 3 ∈ sampleWorld.clients ∧
    (∀ e ∈ [(Payload.json "e1", sampleOutcome), (Payload.json "e2", allOk),
        (Payload.json "e3", sampleOutcome)], e.2 3 = true) ∧
    (handleMessages [(Payload.json "e1", sampleOutcome), (Payload.json "e2", allOk),
        (Payload.json "e3", sampleOutcome)] sampleWorld).attemptsTo 3 =
      sampleWorld.attemptsTo 3 ++
        [(Payload.json "e1", sampleOutcome), (Payload.json "e2", allOk),
          (Payload.json "e3", sampleOutcome)].map Prod.fst ∧
    (handleMessages [(Payload.json "e1", sampleOutcome), (Payload.json "e2", allOk),
        (Payload.json "e3", sampleOutcome)] sampleWorld).receivedBy 3 =
      sampleWorld.receivedBy 3 ++
        [(Payload.json "e1", sampleOutcome), (Payload.json "e2", allOk),
          (Payload.json "e3", sampleOutcome)].map Prod.fst ∧
    3 ∈ (handleMessages [(Payload.json "e1", sampleOutcome), (Payload.json "e2", allOk),
        (Payload.json "e3", sampleOutcome)] sampleWorld).clients :=
  have hev : ∀ e ∈ [(Payload.json "e1", sampleOutcome), (Payload.json "e2", allOk),
      (Payload.json "e3", sampleOutcome)], e.2 3 = true := by
    intro e he
    simp only [List.mem_cons, List.mem_singleton, List.not_mem_nil, or_false] at he
    rcases he with rfl | rfl | rfl <;> rfl
  ⟨by decide, by decide, hev,
    handleMessages_preserves_order _ sampleWorld (by decide) 3 (by decide) hev⟩

/-! ## Cleanup -/

/-- C4 (idempotent cleanup).  Removing a connection twice gives the same registry as removing it
once; removing a connection that is not registered leaves the registry unchanged (the result
is a registry, there is no error case); and when the cleanup of `handleMessages` after a failed
write and the cleanup of `handleConnections` after a failed read both run for the same
connection `c`, in either order, the registry is the initial one without `c`: its members are
the connections other than `c` that were registered before. -/
theorem remove_idempotent (s : World) (c : Conn) :
    mapDelete (mapDelete s.clients c) c = mapDelete s.clients c ∧
    (c ∉ s.clients → mapDelete s.clients c = s.clients) ∧
    (sessionCleanup (hubCleanup s c) c).clients = mapDelete s.clients c ∧
    (hubCleanup (sessionCleanup s c) c).clients = mapDelete s.clients c ∧
    (∀ d, d ∈ mapDelete s.clients c ↔ d ∈ s.clients ∧ d ≠ c) := by
  have hidem : mapDelete (mapDelete s.clients c) c = mapDelete s.clients c := by
    simp [mapDelete, List.filter_filter]
  refine ⟨hidem, ?_, ?_, ?_, fun d => mem_mapDelete⟩
  · intro hc
    unfold mapDelete
    rw [List.filter_eq_self]
    intro d hd
    have : d ≠ c := fun h => hc (h ▸ hd)
    simpa using this
  · simpa [sessionCleanup, hubCleanup, World.remove, World.close] using hidem
  · simpa [sessionCleanup, hubCleanup, World.remove, World.close] using hidem

theorem remove_idempotent_witness :
    4 ∉ sampleWorld.clients ∧ mapDelete sampleWorld.clients 4 = sampleWorld.clients :=
  ⟨by decide, (remove_idempotent sampleWorld 4).2.1 (by decide)⟩

/-! ## Sessions -/

theorem sendInitial_attemptsTo (db : DB) (now : Time) (ws : Conn) (wok : Bool) (s : World) :
    (sendInitial db now ws wok s).attemptsTo ws =
      s.attemptsTo ws ++ [Payload.metrics (getCurrentMetrics db now)] := by
  simp [sendInitial, World.writeJSON, World.attemptsTo, List.filter_append]

/-- C5 as stated fails.  After the session on connection 2 has started, "e1" is dispatched and
the write to 2 fails, then "e2" is dispatched: connection 2 is written its snapshot and "e1",
and "e2", dispatched after the snapshot was taken, is not fanned out to it.  And when a round
whose write to 2 fails runs between the registration and the initial data, the registry is
empty at the moment the snapshot is taken. -/
theorem fanout_ends_at_failed_write :
    (runSession 2 (sessionStartStmts downDB 0 true)
        [run [], run [Action.publish (Payload.json "e1") sampleOutcome,
          Action.publish (Payload.json "e2") allOk]] World.init).attemptsTo 2 =
      [Payload.metrics (getCurrentMetrics downDB 0), Payload.json "e1"] ∧
    (run [Action.publish (Payload.json "e1") sampleOutcome,
        Action.publish (Payload.json "e2") allOk]
        (sessionStart downDB 0 2 true World.init)).attemptsTo 2 =
      [Payload.metrics (getCurrentMetrics downDB 0), Payload.json "e1"] ∧
    (stateAtSnapshot 2 (sessionStartStmts downDB 0 true)
        [run [Action.publish (Payload.json "e0") sampleOutcome]] World.init).map World.clients =
      some [] := by
  refine ⟨?_, ?_, ?_⟩
  · simp [runSession, sessionStartStmts, SessionStmt.exec, run, step, broadcastRound, fanOutStep,
      sendInitial, World.writeJSON, World.add, World.init, mapSet, hubCleanup, World.remove,
      World.close, mapDelete, sampleOutcome, allOk, World.attemptsTo]
  · simp [sessionStart_eq, run, step, broadcastRound, fanOutStep,
      sendInitial, World.writeJSON, World.add, World.init, mapSet, hubCleanup, World.remove,
      World.close, mapDelete, sampleOutcome, allOk, World.attemptsTo]
  · simp [stateAtSnapshot, sessionStartStmts, SessionStmt.exec, run, step, broadcastRound,
      fanOutStep, World.writeJSON, World.add, World.init, mapSet, hubCleanup, World.remove,
      World.close, mapDelete, sampleOutcome]

/-- C5, amended (session start).  After a successful upgrade to `ws`, `handleConnections` runs
the statements of the session start in program order and then the read loop.  The start
registers `ws`, closes nothing and writes exactly one value, to `ws`: the metrics returned by
`getCurrentMetrics`.  Whatever steps of the other goroutines run between the registration and
the initial data (`before`) and after the initial data (`after`), as long as they leave `ws`
registered (no failed write to `ws`, no failed read of `ws`): `ws` is registered in the state in
which the snapshot is taken, and every value dispatched from the registration on, so every
value dispatched after the snapshot is taken, is written to `ws`, in the order of dispatch.  The
value dispatched right after the start is written to `ws` whatever the write outcomes. -/
theorem sessionStart_registers_before_snapshot (db : DB) (now : Time) (ws : Conn) (wok : Bool)
    (reads : List Bool) (s : World) (before after : List Action) (h : s.clients.Nodup)
    (hb : ∀ a ∈ before, a.spares ws) (ha : ∀ a ∈ after, a.spares ws) :
    handleConnections db now (.ok ws) wok reads s =
      (readLoop ws reads (runSession ws (sessionStartStmts db now wok) [] s)).map Prod.fst ∧
    (∃ st, stateAtSnapshot ws (sessionStartStmts db now wok) [run before, run after] s =
        some st ∧
      ws ∈ st.clients) ∧
    (sessionStart db now ws wok s).wire =
      s.wire ++ [{ conn := ws, msg := Payload.metrics (getCurrentMetrics db now), ok := wok }] ∧
    (sessionStart db now ws wok s).clients = mapSet s.clients ws ∧
    (sessionStart db now ws wok s).closed = s.closed ∧
    (∀ (ok : Conn → Bool) (msg : Payload),
      (broadcastRound ok msg (sessionStart db now ws wok s)).attemptsTo ws =
        s.attemptsTo ws ++ [Payload.metrics (getCurrentMetrics db now), msg]) ∧
    (runSession ws (sessionStartStmts db now wok) [run before, run after] s).attemptsTo ws =
      s.attemptsTo ws ++ published before ++
        Payload.metrics (getCurrentMetrics db now) :: published after := by
  have hmemA : ws ∈ (s.add ws).clients := by
    simp only [World.add]
    exact mem_mapSet.mpr (Or.inr rfl)
  have hndA : (s.add ws).clients.Nodup := by
    simp only [World.add]
    exact nodup_mapSet ws h
  have hmem : ws ∈ (sessionStart db now ws wok s).clients := hmemA
  have hnd : (sessionStart db now ws wok s).clients.Nodup := hndA
  have hatt : (sessionStart db now ws wok s).attemptsTo ws =
      s.attemptsTo ws ++ [Payload.metrics (getCurrentMetrics db now)] :=
    sendInitial_attemptsTo db now ws wok (s.add ws)
  obtain ⟨b1, b2, _⟩ := run_spares before ws (s.add ws) hndA hmemA hb
  refine ⟨rfl, ⟨run before (s.add ws), rfl, b1⟩, rfl, rfl, rfl, ?_, ?_⟩
  · intro ok msg
    rw [broadcastRound_attemptsTo ok msg _ hnd ws, hatt]
    simp [hmem]
  · have hnd2 : (sendInitial db now ws wok (run before (s.add ws))).clients.Nodup :=
      run_nodup before (s.add ws) hndA
    have hmem2 : ws ∈ (sendInitial db now ws wok (run before (s.add ws))).clients := b1
    have hrun : runSession ws (sessionStartStmts db now wok) [run before, run after] s =
        run after (sendInitial db now ws wok (run before (s.add ws))) := rfl
    rw [hrun, (run_spares after ws _ hnd2 hmem2 ha).2.1, sendInitial_attemptsTo, b2]
    have : (s.add ws).attemptsTo ws = s.attemptsTo ws := rfl
    rw [this]
    simp

theorem sessionStart_registers_before_snapshot_witness :
    sampleWorld.clients.Nodup ∧
    (∀ a ∈ [Action.publish (Payload.json "e0") allOk], a.spares 7) ∧
    (∀ a ∈ [Action.publish (Payload.json "e1") sampleOutcome, Action.read 3 false,
        Action.publish (Payload.json "e2") allOk], a.spares 7) ∧
    (runSession 7 (sessionStartStmts downDB 0 true)
        [run [Action.publish (Payload.json "e0") allOk],
          run [Action.publish (Payload.json "e1") sampleOutcome, Action.read 3 false,
            Action.publish (Payload.json "e2") allOk]] sampleWorld).attemptsTo 7 =
      sampleWorld.attemptsTo 7 ++ published [Action.publish (Payload.json "e0") allOk] ++
        Payload.metrics (getCurrentMetrics downDB 0) ::
          published [Action.publish (Payload.json "e1") sampleOutcome, Action.read 3 false,
            Action.publish (Payload.json "e2") allOk] :=
  have hb : ∀ a ∈ [Action.publish (Payload.json "e0") allOk], a.spares 7 := by
    intro a ha
    simp only [List.mem_singleton] at ha
    subst ha
    show allOk 7 = true
    rfl
  have hsp : ∀ a ∈ [Action.publish (Payload.json "e1") sampleOutcome, Action.read 3 false,
      Action.publish (Payload.json "e2") allOk], a.spares 7 := by
    intro a ha
    simp only [List.mem_cons, List.mem_singleton, List.not_mem_nil, or_false] at ha
    rcases ha with rfl | rfl | rfl
    · show sampleOutcome 7 = true
      rfl
    · exact Or.inl (by decide)
    · show allOk 7 = true
      rfl
  ⟨by decide, hb, hsp,
    (sessionStart_registers_before_snapshot downDB 0 7 true [] sampleWorld _ _ (by decide) hb
      hsp).2.2.2.2.2.2⟩

theorem readLoop_reading (ws : Conn) (n : Nat) (t : World) :
    readLoop ws (List.replicate n true) t = none := by
  induction n with
  | zero => rfl
  | succ k ih => simpa [List.replicate_succ, readLoop] using ih

theorem readLoop_returns (ws : Conn) (n : Nat) (rest : List Bool) (t : World) :
    readLoop ws (List.replicate n true ++ false :: rest) t = some (sessionCleanup t ws, rest) := by
  induction n with
  | zero => rfl
  | succ k ih => simpa [List.replicate_succ, readLoop] using ih

/-- C6 (disconnect cleanup).  The read loop of `handleConnections` discards every message read
and goes on: after any number of successful reads the function has not returned.  It returns at
the first failed read, leaving the later read outcomes unconsumed; at that point the connection
of the session has been removed from the registry and closed (once, by the deferred `Close`),
the loop has written nothing, and the registry holds exactly the other connections that were
registered when the read failed. -/
theorem readLoop_ends_at_first_failed_read (db : DB) (now : Time) (ws : Conn) (wok : Bool)
    (n : Nat) (rest : List Bool) (s : World) :
    readLoop ws (List.replicate n true) s = none ∧
    readLoop ws (List.replicate n true ++ false :: rest) s = some (sessionCleanup s ws, rest) ∧
    handleConnections db now (.ok ws) wok (List.replicate n true) s = none ∧
    handleConnections db now (.ok ws) wok (List.replicate n true ++ false :: rest) s =
      some (sessionCleanup (sessionStart db now ws wok s) ws) ∧
    (sessionCleanup s ws).clients = mapDelete s.clients ws ∧
    (sessionCleanup s ws).closed = s.closed ++ [ws] ∧
    (sessionCleanup s ws).wire = s.wire ∧
    (∀ d, d ∈ (sessionCleanup s ws).clients ↔ d ∈ s.clients ∧ d ≠ ws) := by
  have h1 := readLoop_reading ws n
  have h2 := readLoop_returns ws n rest
  refine ⟨h1 s, h2 s, ?_, ?_, rfl, rfl, rfl, fun d => mem_mapDelete⟩
  · simp [handleConnections, h1]
  · simp [handleConnections, h2]

/-! ## Membership accounting -/

theorem registry_fold (ops : List RegOp) :
    ∀ m : List Conn, m.Nodup → RegisteredOnce ops → (∀ c ∈ m, c ∉ addsOf ops) →
      ((ops.foldl RegOp.apply m : List Conn) : Multiset Conn) =
        (m : Multiset Conn) + (addsOf ops : Multiset Conn) - (removesOf ops : Multiset Conn) := by
  induction ops with
  | nil => intro m _ _ _; simp [addsOf, removesOf]
  | cons op rest ih =>
    intro m hnd hreg hdisj
    cases op with
    | add c =>
      have hcm : c ∉ m := fun hc => hdisj c hc (by simp [addsOf])
      have hset : mapSet m c = m ++ [c] := by simp [mapSet, hcm]
      have hnd2 : (m ++ [c]).Nodup := by
        rw [← hset]; exact nodup_mapSet c hnd
      have hdisj2 : ∀ d ∈ m ++ [c], d ∉ addsOf rest := by
        intro d hd
        rcases List.mem_append.mp hd with hd | hd
        · intro hx
          exact hdisj d hd (by simp [addsOf, hx])
        · simp at hd
          subst hd
          exact hreg.1
      have := ih (m ++ [c]) hnd2 hreg.2 hdisj2
      simp only [List.foldl_cons, RegOp.apply, hset, addsOf, removesOf]
      rw [this]
      ext d
      simp only [Multiset.count_sub, Multiset.count_add, Multiset.coe_count, List.count_append,
        List.count_cons, List.count_nil]
      omega
    | remove c =>
      have hcA : c ∉ addsOf rest := hreg.1
      have hdisj2 : ∀ d ∈ mapDelete m c, d ∉ addsOf rest := by
        intro d hd
        exact hdisj d (mem_mapDelete.mp hd).1
      have := ih (mapDelete m c) (nodup_mapDelete c hnd) hreg.2 hdisj2
      simp only [List.foldl_cons, RegOp.apply, addsOf, removesOf]
      rw [this]
      ext d
      simp only [Multiset.count_sub, Multiset.count_add, Multiset.coe_count, List.count_cons]
      by_cases hdc : d = c
      · subst hdc
        have h0 : List.count d (mapDelete m d) = 0 :=
          List.count_eq_zero_of_not_mem (fun hx => (mem_mapDelete.mp hx).2 rfl)
        have h1 : List.count d (addsOf rest) = 0 := List.count_eq_zero_of_not_mem hcA
        have h2 : List.count d m ≤ 1 := List.nodup_iff_count_le_one.mp hnd d
        simp [h0, h1]
        omega
      · have h0 : List.count d (mapDelete m c) = List.count d m := by
          unfold mapDelete
          rw [List.count_filter]
          simpa using hdc
        have hcd : ¬ c = d := fun h => hdc h.symm
        simp [h0, hcd]

/-- Accounting for a sequence of calls in which no call on a connection is followed by an `Add`
of the same connection. -/
theorem registryAfter_accounting (ops : List RegOp) (h : RegisteredOnce ops) :
    (registryAfter ops : Multiset Conn) =
      (addsOf ops : Multiset Conn) - (removesOf ops : Multiset Conn) := by
  have := registry_fold ops [] List.nodup_nil h (by simp)
  simpa [registryAfter] using this

theorem foldl_remove (l : List Conn) :
    ∀ m : List Conn, (l.map RegOp.remove).foldl RegOp.apply m =
      m.filter (fun d => decide (d ∉ l)) := by
  induction l with
  | nil => intro m; simp
  | cons c t ih =>
    intro m
    simp only [List.map_cons, List.foldl_cons, RegOp.apply, ih, mapDelete, List.filter_filter]
    apply List.filter_congr
    intro d _
    by_cases hdc : d = c <;> simp [hdc]

theorem addsOf_append (l1 l2 : List RegOp) : addsOf (l1 ++ l2) = addsOf l1 ++ addsOf l2 := by
  induction l1 with
  | nil => rfl
  | cons op rest ih => cases op <;> simp [addsOf, ih]

theorem addsOf_removes (l : List Conn) : addsOf (l.map RegOp.remove) = [] := by
  induction l with
  | nil => rfl
  | cons c t ih => simpa [addsOf] using ih

theorem addsOf_callsOf (s : World) (a : Action) : addsOf (callsOf s a) = connectsOf [a] := by
  cases a with
  | publish msg ok => simp [callsOf, connectsOf, addsOf_removes]
  | connect db now ws wok => rfl
  | read ws ok => cases ok <;> rfl

theorem connectsOf_cons (a : Action) (rest : List Action) :
    connectsOf (a :: rest) = connectsOf [a] ++ connectsOf rest := by
  cases a <;> simp [connectsOf]

/-- The connections added by a run are those on which it starts a session. -/
theorem addsOf_runCalls (acts : List Action) :
    ∀ s : World, addsOf (runCalls acts s) = connectsOf acts := by
  induction acts with
  | nil => intro s; rfl
  | cons a rest ih =>
    intro s
    rw [runCalls, addsOf_append, ih, addsOf_callsOf, ← connectsOf_cons]

theorem registeredOnce_removes_append (l : List Conn) (ops : List RegOp)
    (hl : ∀ c ∈ l, c ∉ addsOf ops) (h : RegisteredOnce ops) :
    RegisteredOnce (l.map RegOp.remove ++ ops) := by
  induction l with
  | nil => simpa using h
  | cons c t ih =>
    have ht := ih (fun d hd => hl d (List.mem_cons_of_mem c hd))
    refine ⟨?_, ht⟩
    show c ∉ addsOf (t.map RegOp.remove ++ ops)
    rw [addsOf_append, addsOf_removes]
    simpa using hl c (List.mem_cons_self c t)

/-- The registry after a step is the registry before it with the calls of the step applied. -/
theorem step_clients_calls (s : World) (a : Action) (h : s.clients.Nodup) :
    (step s a).clients = (callsOf s a).foldl RegOp.apply s.clients := by
  cases a with
  | publish msg ok =>
    simp only [step, callsOf, foldl_remove]
    rw [broadcastRound_eq ok msg s h]
    apply List.filter_congr
    intro d hd
    by_cases hok : ok d = true
    · simp [hok]
    · have hok2 : ok d = false := by simpa using hok
      simp [hok2, hd]
  | connect db now ws wok => rfl
  | read ws ok => cases ok <;> rfl

/-- The registry after a run is the registry before it with the calls of the run applied. -/
theorem run_clients_calls (acts : List Action) :
    ∀ s : World, s.clients.Nodup →
      (run acts s).clients = (runCalls acts s).foldl RegOp.apply s.clients := by
  induction acts with
  | nil => intro s _; rfl
  | cons a rest ih =>
    intro s h
    have hrun : run (a :: rest) s = run rest (step s a) := rfl
    rw [hrun, ih (step s a) (step_nodup s a h), runCalls, List.foldl_append,
      step_clients_calls s a h]

theorem step_clients_subset (s : World) (a : Action) (h : s.clients.Nodup) (c : Conn)
    (hc : c ∈ (step s a).clients) : c ∈ s.clients ∨ c ∈ connectsOf [a] := by
  cases a with
  | publish msg ok => exact Or.inl ((broadcastRound_mem ok msg s h c).mp hc).1
  | connect db now ws wok =>
    have : c ∈ mapSet s.clients ws := hc
    rcases mem_mapSet.mp this with h1 | h1
    · exact Or.inl h1
    · exact Or.inr (by simp [connectsOf, h1])
  | read ws ok =>
    cases ok with
    | true => exact Or.inl hc
    | false =>
      have : c ∈ mapDelete s.clients ws := hc
      exact Or.inl (mem_mapDelete.mp this).1

/-- The calls made by a run the process can take: no call on a connection is followed by an
`Add` of the same connection. -/
theorem runCalls_registeredOnce (acts : List Action) :
    ∀ s : World, s.clients.Nodup → FreshUpgrades acts → (∀ c ∈ s.clients, c ∉ connectsOf acts) →
      RegisteredOnce (runCalls acts s) := by
  induction acts with
  | nil => intro s _ _ _; trivial
  | cons a rest ih =>
    intro s h hf hdisj
    have hrestF : FreshUpgrades rest := by
      cases a with
      | publish msg ok => exact hf
      | connect db now ws wok => exact hf.2
      | read ws ok => exact hf.2
    have hnew : ∀ c ∈ connectsOf [a], c ∉ connectsOf rest := by
      intro c hc
      cases a with
      | publish msg ok => simp [connectsOf] at hc
      | connect db now ws wok =>
        simp [connectsOf] at hc
        subst hc
        exact hf.1
      | read ws ok => simp [connectsOf] at hc
    have hold : ∀ c ∈ s.clients, c ∉ connectsOf rest := by
      intro c hc hx
      apply hdisj c hc
      rw [connectsOf_cons]
      exact List.mem_append_right _ hx
    have hdisj2 : ∀ c ∈ (step s a).clients, c ∉ connectsOf rest := by
      intro c hc
      rcases step_clients_subset s a h c hc with h1 | h1
      · exact hold c h1
      · exact hnew c h1
    have hrest := ih (step s a) (step_nodup s a h) hrestF hdisj2
    rw [runCalls]
    cases a with
    | publish msg ok =>
      apply registeredOnce_removes_append _ _ _ hrest
      intro c hc
      rw [addsOf_runCalls]
      exact hold c (List.mem_filter.mp hc).1
    | connect db now ws wok =>
      refine ⟨?_, hrest⟩
      show ws ∉ addsOf (runCalls rest (step s (Action.connect db now ws wok)))
      rw [addsOf_runCalls]
      exact hf.1
    | read ws ok =>
      cases ok with
      | true => exact hrest
      | false =>
        refine ⟨?_, hrest⟩
        show ws ∉ addsOf (runCalls rest (step s (Action.read ws false)))
        rw [addsOf_runCalls]
        exact hf.1

/-- C7 (membership accounting).  For every finite sequence of steps the process can take from the
empty registry (`upgrader.Upgrade` returns a new connection each time, a session reads from its
connection after registering it), the `Add` and `Remove` calls it makes never add a connection
twice nor remove one before it is added, the registry at the end is the result of these calls
on the empty map, and the final membership is the multiset of added connections minus the
multiset of removed connections. -/
theorem run_registry_accounting (acts : List Action) (h : FreshUpgrades acts) :
    RegisteredOnce (runCalls acts World.init) ∧
    (run acts World.init).clients = registryAfter (runCalls acts World.init) ∧
    ((run acts World.init).clients : Multiset Conn) =
      (addsOf (runCalls acts World.init) : Multiset Conn) -
        (removesOf (runCalls acts World.init) : Multiset Conn) := by
  have hreg : RegisteredOnce (runCalls acts World.init) :=
    runCalls_registeredOnce acts World.init List.nodup_nil h (by simp [World.init])
  have hcl : (run acts World.init).clients = registryAfter (runCalls acts World.init) :=
    run_clients_calls acts World.init List.nodup_nil
  refine ⟨hreg, hcl, ?_⟩
  rw [hcl]
  exact registryAfter_accounting _ hreg

theorem run_registry_accounting_witness :
    FreshUpgrades [Action.connect downDB 0 1 true, Action.connect downDB 0 2 true,
      Action.publish (Payload.json "e1") sampleOutcome, Action.read 2 false,
      Action.connect downDB 0 3 true, Action.read 1 false] ∧
    ((run [Action.connect downDB 0 1 true, Action.connect downDB 0 2 true,
        Action.publish (Payload.json "e1") sampleOutcome, Action.read 2 false,
        Action.connect downDB 0 3 true, Action.read 1 false] World.init).clients :
          Multiset Conn) =
      (addsOf (runCalls [Action.connect downDB 0 1 true, Action.connect downDB 0 2 true,
        Action.publish (Payload.json "e1") sampleOutcome, Action.read 2 false,
        Action.connect downDB 0 3 true, Action.read 1 false] World.init) : Multiset Conn) -
      (removesOf (runCalls [Action.connect downDB 0 1 true, Action.connect downDB 0 2 true,
        Action.publish (Payload.json "e1") sampleOutcome, Action.read 2 false,
        Action.connect downDB 0 3 true, Action.read 1 false] World.init) : Multiset Conn) :=
  have hf : FreshUpgrades [Action.connect downDB 0 1 true, Action.connect downDB 0 2 true,
      Action.publish (Payload.json "e1") sampleOutcome, Action.read 2 false,
      Action.connect downDB 0 3 true, Action.read 1 false] := by
    simp [FreshUpgrades, connectsOf]
  ⟨hf, (run_registry_accounting _ hf).2.2⟩

/-! ## The end-to-end run -/

/-- C9 (end-to-end scenario).  From the empty registry, with every write to a connected
subscriber succeeding: publishing `A` with nobody connected changes nothing (nothing is written,
nothing fails); at the end of the run `S1` has been written, and has received, exactly its
initial snapshot, `B` and `C`; `S2` exactly its initial snapshot, `C` and `D`; the registry is
`S2` alone, of size 1, and the only connection closed is `S1`. -/
theorem scenario_end_to_end (db1 db2 : DB) (t1 t2 : Time) (S1 S2 : Conn) (A B C D : Payload)
    (ok0 ok1 ok2 ok3 : Conn → Bool) (hne : S1 ≠ S2)
    (h1 : ok1 S1 = true) (h2 : ok2 S1 = true) (h2b : ok2 S2 = true) (h3 : ok3 S2 = true) :
    run [Action.publish A ok0] World.init = World.init ∧
    (run (scenario db1 db2 t1 t2 S1 S2 A B C D ok0 ok1 ok2 ok3) World.init).receivedBy S1 =
      [Payload.metrics (getCurrentMetrics db1 t1), B, C] ∧
    (run (scenario db1 db2 t1 t2 S1 S2 A B C D ok0 ok1 ok2 ok3) World.init).receivedBy S2 =
      [Payload.metrics (getCurrentMetrics db2 t2), C, D] ∧
    (run (scenario db1 db2 t1 t2 S1 S2 A B C D ok0 ok1 ok2 ok3) World.init).attemptsTo S1 =
      [Payload.metrics (getCurrentMetrics db1 t1), B, C] ∧
    (run (scenario db1 db2 t1 t2 S1 S2 A B C D ok0 ok1 ok2 ok3) World.init).attemptsTo S2 =
      [Payload.metrics (getCurrentMetrics db2 t2), C, D] ∧
    (run (scenario db1 db2 t1 t2 S1 S2 A B C D ok0 ok1 ok2 ok3) World.init).clients = [S2] ∧
    (run (scenario db1 db2 t1 t2 S1 S2 A B C D ok0 ok1 ok2 ok3) World.init).clients.length = 1 ∧
    (run (scenario db1 db2 t1 t2 S1 S2 A B C D ok0 ok1 ok2 ok3) World.init).closed = [S1] := by
  have hne2 : S2 ≠ S1 := fun h => hne h.symm
  have hrun : run (scenario db1 db2 t1 t2 S1 S2 A B C D ok0 ok1 ok2 ok3) World.init =
      { clients := [S2]
        closed := [S1]
        wire := [{ conn := S1, msg := Payload.metrics (getCurrentMetrics db1 t1), ok := true },
          { conn := S1, msg := B, ok := true },
          { conn := S2, msg := Payload.metrics (getCurrentMetrics db2 t2), ok := true },
          { conn := S1, msg := C, ok := true }, { conn := S2, msg := C, ok := true },
          { conn := S2, msg := D, ok := true }] } := by
    simp [scenario, run, step, broadcastRound, fanOutStep, sessionStart_eq, sendInitial,
      World.writeJSON, World.add, World.init, mapSet, hubCleanup, sessionCleanup, World.remove,
      World.close, mapDelete, hne, hne2, h1, h2, h2b, h3]
  refine ⟨?_, ?_, ?_, ?_, ?_, ?_, ?_, ?_⟩
  · simp [run, step, broadcastRound, World.init]
  all_goals rw [hrun]
  all_goals simp [World.receivedBy, World.attemptsTo, List.filter_cons, hne, hne2]

theorem scenario_end_to_end_witness :
    (1 : Conn) ≠ 2 ∧ allOk 1 = true ∧ allOk 2 = true ∧
    (run (scenario downDB downDB 10 20 1 2 (Payload.json "A") (Payload.json "B")
        (Payload.json "C") (Payload.json "D") allOk allOk allOk allOk) World.init).clients = [2] :=
  ⟨by decide, rfl, rfl,
    (scenario_end_to_end downDB downDB 10 20 1 2 (Payload.json "A") (Payload.json "B")
      (Payload.json "C") (Payload.json "D") allOk allOk allOk allOk (by decide) rfl rfl rfl
      rfl).2.2.2.2.2.1⟩

/-! ## The query handlers -/

theorem getBlock_error (db : DB) (r : Request) (err : String)
    (h : db.rowBlock
      "SELECT id, hash, parent_hash, timestamp, confirmations, is_tip, weight FROM blocks WHERE id = $1 OR hash = $1"
      [r.vars "id"] = .error err) :
    getBlock db r = httpError "Block not found" StatusNotFound := by
  simp [getBlock, h]

theorem getTransaction_error (db : DB) (r : Request) (err : String)
    (h : db.rowTransaction
      "SELECT hash, from_address, to_address, amount, timestamp, block_hash, status FROM transactions WHERE hash = $1"
      [r.vars "hash"] = .error err) :
    getTransaction db r = httpError "Transaction not found" StatusNotFound := by
  simp [getTransaction, h]

theorem getMetrics_status (db : DB) (now : Time) (r : Request) :
    (getMetrics db now r).status = 200 := rfl

theorem search_status (db : DB) (r : Request) (h : r.query "q" ≠ "") :
    (search db r).status = 200 := by
  simp [search, h, jsonOK]

/-- C8 as stated fails: with a store whose every query fails with "connection refused",
`getBlock` and `getTransaction` answer 404 with a fixed text, and `getMetrics` and `search`
answer 200; none of the four responses is a 5xx carrying the error. -/
theorem store_error_not_surfaced :
    downDB.rowBlock
      "SELECT id, hash, parent_hash, timestamp, confirmations, is_tip, weight FROM blocks WHERE id = $1 OR hash = $1"
      ["x"] = .error "connection refused" ∧
    (getBlock downDB (constRequest "x")).status = 404 ∧
    (getBlock downDB (constRequest "x")).body = Body.text "Block not found\n" ∧
    (getTransaction downDB (constRequest "x")).status = 404 ∧
    (getTransaction downDB (constRequest "x")).body = Body.text "Transaction not found\n" ∧
    (getMetrics downDB 0 (constRequest "x")).status = 200 ∧
    (search downDB (constRequest "x")).status = 200 ∧
    (search downDB (constRequest "x")).body = Body.search "x" [] [] := by
  refine ⟨rfl, rfl, ?_, rfl, ?_, rfl, ?_, ?_⟩
  · simp [getBlock, downDB, httpError]
  · simp [getTransaction, downDB, httpError]
  · simp [search, constRequest, jsonOK]
  · simp [search, constRequest, jsonOK, downDB]

/-- C8, amended (store errors become 5xx).  For the handlers `getBlocks` and `getAddress` and
every request, if the store query issued by the handler returns an error, the response has
status 500, a 5xx, and its body is the text of the error. -/
theorem query_error_becomes_500 (db : DB) (r : Request) (err : String) :
    (db.queryBlocks getBlocksQuery [if r.query "limit" = "" then "50" else r.query "limit"] =
        .error err →
      (getBlocks db r).status = 500 ∧ 500 ≤ (getBlocks db r).status ∧
      (getBlocks db r).status < 600 ∧ (getBlocks db r).body = Body.text (err ++ "\n")) ∧
    (db.queryTransactions getAddressQuery [r.vars "address"] = .error err →
      (getAddress db r).status = 500 ∧ 500 ≤ (getAddress db r).status ∧
      (getAddress db r).status < 600 ∧ (getAddress db r).body = Body.text (err ++ "\n")) := by
  constructor
  · intro h
    simp [getBlocks, h, httpError, StatusInternalServerError]
  · intro h
    simp [getAddress, h, httpError, StatusInternalServerError]

theorem query_error_becomes_500_witness :
    downDB.queryBlocks getBlocksQuery
        [if (constRequest "x").query "limit" = "" then "50" else (constRequest "x").query "limit"] =
      .error "connection refused" ∧
    downDB.queryTransactions getAddressQuery [(constRequest "x").vars "address"] =
      .error "connection refused" ∧
    (getBlocks downDB (constRequest "x")).body = Body.text ("connection refused" ++ "\n") ∧
    (getAddress downDB (constRequest "x")).body = Body.text ("connection refused" ++ "\n") :=
  ⟨rfl, rfl,
    ((query_error_becomes_500 downDB (constRequest "x") "connection refused").1 rfl).2.2.2,
    ((query_error_becomes_500 downDB (constRequest "x") "connection refused").2 rfl).2.2.2⟩

end DagLens
